import Mathlib

/-!
Verification of the data-preparation and batching pipeline of
`data/process_data.py` (`DataProcessor` / `Batcher`).

The Python code is shallowly embedded: Python dicts become association
lists (`Dict`), Python sets become duplicate-free lists (membership is
what matters), machine integers are `Nat`/`Int`, fallible operations
(`KeyError`, `TypeError`) return `Except`/`Option`, and the hidden
randomness (`np.random.choice`, `np.random.shuffle`) is made explicit as
function parameters constrained by hypotheses.
-/

namespace ProcessData

/-- A Python dict, embedded as an insertion-ordered association list.
`List.lookup` returns the first binding; all construction goes through
`dictInsert`, which overwrites an existing key in place, so keys stay
unique and lookup agrees with Python dict lookup. -/
abbrev Dict (α β : Type) := List (α × β)

/-- Python `d[k] = v`: overwrite in place if the key is present
(preserving insertion order), otherwise append a new binding. -/
def dictInsert [BEq α] (m : Dict α β) (k : α) (v : β) : Dict α β :=
  if (m.lookup k).isSome then
    m.map (fun p => bif p.1 == k then (k, v) else p)
  else
    m ++ [(k, v)]

/-- Python `defaultdict(set)` update `m[k].add(v)`: sets are embedded as
duplicate-free lists, so adding appends the element only if new. -/
def addToSet [BEq α] [BEq β] (m : Dict α (List β)) (k : α) (v : β) : Dict α (List β) :=
  match m.lookup k with
  | some s => dictInsert m k (if s.contains v then s else s ++ [v])
  | none => m ++ [(k, [v])]

/-- Reserved unknown-token id. Modelled from the spec: `utils/constant.py`
is not under `src/`; the spec fixes only `PAD_ID = 0` and `UNK_ID` an
implementation-defined nonzero constant. No claim depends on its value. -/
def UNK_ID : Nat := 1

/-- `numpy` multi-hot assignment `v = zeros(n); v[idxs] = 1`.
(The numpy version raises `IndexError` when an index is `≥ n`; theorems
that rely on in-bounds indices carry that as a hypothesis.) -/
def multiHot (n : Nat) (idxs : List Nat) : List Nat :=
  (List.range n).map (fun i => if idxs.contains i then 1 else 0)

/-- Python substring test `needle in hay`. -/
def containsSub (needle hay : String) : Bool :=
  decide (needle.data <:+: hay.data)

/-- Python `str.lower` (per character). -/
def strLower (s : String) : String := ⟨s.data.map Char.toLower⟩

/-- `DataProcessor.get_positions` (process_data.py lines 169-172):
`list(range(-start_idx, 0)) + [0] * (end_idx - start_idx + 1) +
list(range(1, length - end_idx))`. Truncated `Nat` subtraction matches
Python's empty ranges / empty list-repetition for negative counts. -/
def get_positions (start_idx end_idx length : Nat) : List Int :=
  (List.range start_idx).map (fun (i : Nat) => (i : Int) - (start_idx : Int))
    ++ List.replicate (end_idx + 1 - start_idx) 0
    ++ (List.range (length - end_idx - 1)).map (fun (i : Nat) => (i : Int) + 1)

/-- `DataProcessor.map_to_ids` (lines 174-175): map each name through the
lookup, substituting `UNK_ID` for out-of-vocabulary names. -/
def map_to_ids (names : List String) (mapper : Dict String Nat) : List Nat :=
  names.map (fun t => (mapper.lookup t).getD UNK_ID)

/-- Python list slice assignment `l[a:b] = xs`: both bounds are clamped
to `[0, len(l)]` and the upper bound is at least the lower one; the
selected segment is replaced by `xs` (which may have a different
length, so the list can grow or shrink). -/
def sliceAssign (l : List α) (a b : Nat) (xs : List α) : List α :=
  let a' := min a l.length
  let b' := min (max b a') l.length
  l.take a' ++ xs ++ l.drop b'

/-- Configuration options consumed by the pipeline. -/
structure Config where
  lower : Bool
  typed_relations : Bool
  relation_masking : Bool
deriving DecidableEq, Repr, Inhabited

/-- One raw JSON record. Every field the code accesses with `d[...]` is
an `Option`: `none` models an absent key (Python `KeyError`). -/
structure RawRecord where
  token : Option (List String)
  subj_start : Option Nat
  subj_end : Option Nat
  obj_start : Option Nat
  obj_end : Option Nat
  subj_type : Option String
  obj_type : Option String
  stanford_pos : Option (List String)
  stanford_ner : Option (List String)
  stanford_deprel : Option (List String)
  relation : Option String
deriving DecidableEq, Repr, Inhabited

/-- A value stored in a sample's `supplemental` dict: the canonical
triple, the initial relation-masking triple, or (after iterator
construction) the set of known relations that replaces it. -/
inductive SuppVal where
  | trip (t : Nat × Nat × Nat)
  | maskTriple (t : Nat × Nat × Nat)
  | maskKnown (rels : List Nat)
deriving DecidableEq, Repr, Inhabited

/-- The `base` part of a parsed sample (lines 97-105); the
`activated_relations` entry is added later by `create_iterator`. -/
structure BaseSample where
  tokens : List Nat
  pos : List Nat
  ner : List Nat
  deprel : List Nat
  subj_positions : List Int
  obj_positions : List Int
  relation : Nat
  subj_id : Nat
  obj_id : Nat
  activated_relations : Option (List Nat) := none
deriving DecidableEq, Repr, Inhabited

/-- One parsed sample: `{'base': ..., 'supplemental': ...}` (line 119). -/
structure Sample where
  base : BaseSample
  supplemental : Dict String SuppVal
deriving DecidableEq, Repr, Inhabited

/-- The mutable `DataProcessor` lookup state: `self.name2id` (lines
17-29) plus `self.graph` (line 31). `ent2id`, `pos2id`, `ner2id` and
`deprel2id` are the read-only vocabulary inputs. -/
structure ProcState where
  ent2id : Dict String Nat
  pos2id : Dict String Nat
  ner2id : Dict String Nat
  deprel2id : Dict String Nat
  subj2id : Dict String Nat := []
  obj2id : Dict String Nat := []
  rel2id : Dict String Nat := []
  binary_rel2rels : Dict String (List Nat) := []
  subj2rels : Dict String (List Nat) := []
  subj_obj2triples : Dict String (List (Nat × Nat × Nat)) := []
  graph : Dict (Nat × Nat) (List Nat) := []
deriving DecidableEq, Repr, Inhabited

/-- The subject-type grouping step (lines 84-89): check `'per' in
relation_name` first, then `'org'`, else the `no_relation` bucket. -/
def updateSubjRels (m : Dict String (List Nat)) (relation_name : String) (relation_id : Nat) :
    Dict String (List Nat) :=
  if containsSub "per" relation_name then
    addToSet m "per:relation" relation_id
  else if containsSub "org" relation_name then
    addToSet m "org:relation" relation_id
  else
    addToSet m "no_relation" relation_id

/-- The body of the `parse_data` loop for a single record (lines 47-121).
Fails (Python `KeyError`) when a required field is absent or when the
synthetic entity-type token is not in the vocabulary (lines 56-57 index
`ent2id` directly, with no unknown-token fallback). Span boundaries are
*not* validated anywhere: list slice assignment and `get_positions`
never raise. -/
def parseRecord (cfg : Config) (st : ProcState) (d : RawRecord) :
    Except String (Sample × ProcState) :=
  match d.token, d.subj_start, d.subj_end, d.obj_start, d.obj_end,
        d.subj_type, d.obj_type, d.stanford_pos, d.stanford_ner,
        d.stanford_deprel, d.relation with
  | some tokens0, some ss, some se, some os, some oe, some subj_ty,
    some obj_ty, some pos_raw, some ner_raw, some deprel_raw, some rel_raw =>
    let tokens1 := if cfg.lower then tokens0.map strLower else tokens0
    let subject_type := "SUBJ-" ++ subj_ty
    let object_type := "OBJ-" ++ obj_ty
    match st.ent2id.lookup subject_type, st.ent2id.lookup object_type with
    | some subject_id, some object_id =>
      let st := { st with
        subj2id := dictInsert st.subj2id subject_type subject_id,
        obj2id := dictInsert st.obj2id object_type object_id }
      let tokens2 := sliceAssign tokens1 ss (se + 1) (List.replicate (se + 1 - ss) subject_type)
      let tokens3 := sliceAssign tokens2 os (oe + 1) (List.replicate (oe + 1 - os) object_type)
      let token_ids := map_to_ids tokens3 st.ent2id
      let pos := map_to_ids pos_raw st.pos2id
      let ner := map_to_ids ner_raw st.ner2id
      let deprel := map_to_ids deprel_raw st.deprel2id
      let l := tokens3.length
      let subj_positions := get_positions ss se l
      let obj_positions := get_positions os oe l
      let relation_name :=
        if cfg.typed_relations then subj_ty ++ ":" ++ rel_raw ++ ":" ++ obj_ty else rel_raw
      let relation_id :=
        match st.rel2id.lookup relation_name with
        | some i => i
        | none => st.rel2id.length
      let st :=
        match st.rel2id.lookup relation_name with
        | some _ => st
        | none => { st with rel2id := st.rel2id ++ [(relation_name, st.rel2id.length)] }
      let triple := (subject_id, relation_id, object_id)
      let st :=
        if relation_name == "no_relation" then
          { st with binary_rel2rels := addToSet st.binary_rel2rels "no_relation" relation_id }
        else
          { st with binary_rel2rels := addToSet st.binary_rel2rels "has_relation" relation_id }
      let st := { st with subj2rels := updateSubjRels st.subj2rels relation_name relation_id }
      let st :=
        if relation_name != "no_relation" then
          { st with subj_obj2triples :=
            addToSet st.subj_obj2triples (subject_type ++ ":" ++ object_type) triple }
        else
          { st with subj_obj2triples := addToSet st.subj_obj2triples "no_relation" triple }
      let st :=
        if cfg.relation_masking then
          { st with graph := addToSet st.graph (subject_id, object_id) relation_id }
        else st
      let supplemental :=
        if cfg.relation_masking then
          [("triple", SuppVal.trip triple),
           ("relation_masking", SuppVal.maskTriple triple)]
        else [("triple", SuppVal.trip triple)]
      .ok ({ base := { tokens := token_ids, pos := pos, ner := ner, deprel := deprel,
                       subj_positions := subj_positions, obj_positions := obj_positions,
                       relation := relation_id, subj_id := subject_id, obj_id := object_id },
             supplemental := supplemental }, st)
    | _, _ => .error "KeyError: entity type token not in vocabulary"
  | _, _, _, _, _, _, _, _, _, _, _ => .error "KeyError: missing required field"

/-- The `parse_data` loop over all records, threading the mutable state. -/
def parseRecords (cfg : Config) (st : ProcState) :
    List RawRecord → Except String (List Sample × ProcState)
  | [] => .ok ([], st)
  | d :: ds => do
    let (s, st') ← parseRecord cfg st d
    let (rest, st'') ← parseRecords cfg st' ds
    .ok (s :: rest, st'')

/-- `DataProcessor.reverse_set_maps` (lines 162-167): invert a
label-to-set map into a value-to-label map (later assignments win, as
in a Python dict). -/
def reverse_set_maps [BEq β] (dict2set : Dict α (List β)) : Dict β α :=
  dict2set.foldl (fun acc p => p.2.foldl (fun acc2 v => dictInsert acc2 v p.1) acc) []

/-- `DataProcessor.create_all_possible_triples` (lines 144-155): the
Cartesian product of observed subject ids, all relation ids and observed
object ids. Python collects them in a set; `dedup` models that. -/
def create_all_possible_triples (st : ProcState) : List (Nat × Nat × Nat) :=
  (((st.subj2id.map Prod.snd).flatMap (fun s =>
    (st.rel2id.map Prod.snd).flatMap (fun r =>
      (st.obj2id.map Prod.snd).map (fun o => (s, r, o))))) : List (Nat × Nat × Nat)).dedup

/-- `DataProcessor.add_unused_triples` (lines 157-160): map every unused
triple to `"no_relation"`. The Python `assert unused_triple not in
mappings` always passes because the caller filters to absent keys. -/
def add_unused_triples (unused : List (Nat × Nat × Nat))
    (mappings : Dict (Nat × Nat × Nat) String) : Dict (Nat × Nat × Nat) String :=
  unused.foldl (fun m t => m ++ [(t, "no_relation")]) mappings

/-- The output of `parse_data` (lines 123-136): parsed samples plus the
derived curriculum maps and the final mutable state. -/
structure ParseResult where
  samples : List Sample
  id2rel : Dict Nat String
  rel2binary_rel : Dict Nat String
  rel2subj : Dict Nat String
  triple2subj_obj : Dict (Nat × Nat × Nat) String
  rel2ids : Dict String (List Nat)
  num_rel : Nat
  state : ProcState
deriving DecidableEq, Repr, Inhabited

/-- `DataProcessor.parse_data` (lines 44-136): parse every record, then
derive the reverse curriculum maps and close `triple2subj_obj` over the
full triple product. `unused = all_possible_triples -
set(triple2subj_obj)` is modelled by filtering the product to keys
absent from the map (set iteration order does not affect the content). -/
def parse_data (cfg : Config) (st : ProcState) (records : List RawRecord) :
    Except String ParseResult :=
  match parseRecords cfg st records with
  | .error e => .error e
  | .ok (samples, st') =>
    let id2rel := st'.rel2id.map (fun p => (p.2, p.1))
    let rel2binary_rel := reverse_set_maps st'.binary_rel2rels
    let rel2subj := reverse_set_maps st'.subj2rels
    let observed := reverse_set_maps st'.subj_obj2triples
    let all_possible := create_all_possible_triples st'
    let unused := all_possible.filter (fun t => (observed.lookup t).isNone)
    let triple2subj_obj := add_unused_triples unused observed
    let rel2ids := st'.rel2id.map (fun p => (p.1, [p.2]))
    .ok { samples := samples, id2rel := id2rel, rel2binary_rel := rel2binary_rel,
          rel2subj := rel2subj, triple2subj_obj := triple2subj_obj,
          rel2ids := rel2ids, num_rel := st'.rel2id.length, state := st' }

/-- The comparison used by `Batcher.sort_all` (lines 444-448). Python
sorts the rows `(len_j, j, field1_j, field2_j, ...)` of
`zip(*([lens] + [range(len(lens))] + batch))` with `reverse=True`; the
position entries `j` are pairwise distinct, so tuple comparison never
reaches the remaining fields and sorting descending by the `(len, j)`
key is faithful (and, the keys being distinct, uniquely determined). -/
def rowBefore (a b : Nat × Nat × α) : Prop :=
  b.1 < a.1 ∨ (a.1 = b.1 ∧ b.2.1 ≤ a.2.1)

instance (α : Type) : DecidableRel (rowBefore : Nat × Nat × α → Nat × Nat × α → Prop) :=
  fun a b => by unfold rowBefore; infer_instance

instance (α : Type) : IsTotal (Nat × Nat × α) rowBefore :=
  ⟨by intro a b; unfold rowBefore; omega⟩

instance (α : Type) : IsTrans (Nat × Nat × α) rowBefore :=
  ⟨by intro a b c; unfold rowBefore; omega⟩

/-- `Batcher.sort_all` (lines 444-448): sort all per-example fields by
descending sentence length and return them together with `orig_idx`,
the list whose entry `i` is the pre-sort position of the example now at
sorted position `i`. The per-example payload `α` stands for the tuple
of remaining fields of one example (the transposed `batch`). -/
def sort_all (batch : List α) (lens : List Nat) : List α × List Nat :=
  let rows := lens.zip ((List.range lens.length).zip batch)
  let sortedRows := List.insertionSort rowBefore rows
  (sortedRows.map (fun r => r.2.2), sortedRows.map (fun r => r.2.1))

/-- The tuple of the seven base fields of one example produced by
`Batcher.base_mapper` (lines 315-324), as a named record. -/
structure BaseRow where
  tokens : List Nat
  pos : List Nat
  ner : List Nat
  deprel : List Nat
  subj_positions : List Int
  obj_positions : List Int
  activated_relations : List Nat
deriving DecidableEq, Repr, Inhabited

/-- `Batcher.base_mapper` (lines 315-324): the seven base fields of one
sample. Python raises `KeyError` when `activated_relations` is missing;
only enriched samples are ever batched, so the default is never
exercised in the modelled flows. -/
def base_mapper (s : BaseSample) : BaseRow :=
  { tokens := s.tokens, pos := s.pos, ner := s.ner, deprel := s.deprel,
    subj_positions := s.subj_positions, obj_positions := s.obj_positions,
    activated_relations := s.activated_relations.getD [] }

/-- One entry of `Batcher.batches`: the per-example base tuples and the
supplemental fields, each as its own parallel per-example list. -/
structure DataBatch where
  base : List BaseRow
  supplemental : Dict String (List SuppVal)
deriving DecidableEq, Repr, Inhabited

/-- Python `range(0, len(data), batch_size)` chunking; the fuel argument
is `data.length`, enough because each step consumes at least one
element when `batch_size ≥ 1` (Python raises on step 0). -/
def chunkAux (fuel batch_size : Nat) : List α → List (List α)
  | [] => []
  | a :: l =>
    match fuel with
    | 0 => []
    | fuel' + 1 => ((a :: l).take batch_size) :: chunkAux fuel' batch_size ((a :: l).drop batch_size)

/-- `Batcher.create_batches` (lines 298-313): chunk the data into
consecutive groups and split each group into base tuples and
per-supplemental-name parallel lists. The supplemental names are read
from `data[0]`; Python would raise `KeyError` for a sample missing one
of those names (`filterMap` models the lookup; every sample produced by
`parse_data` carries the same key set). -/
def create_batches (data : List Sample) (batch_size : Nat) : List DataBatch :=
  match data with
  | [] => []
  | d0 :: _ =>
    if batch_size = 0 then []
    else
      (chunkAux data.length batch_size data).map (fun batch =>
        { base := batch.map (fun s => base_mapper s.base),
          supplemental := d0.supplemental.map (fun p =>
            (p.1, batch.filterMap (fun s => s.supplemental.lookup p.1))) })

/-- The supplemental names that `Batcher.ready_data_batch` (lines
410-429) carries into the readied batch: its `if/elif` dispatch handles
exactly the names `'relation_masks'`, `'binary_labels'` and `'triple'`;
an entry under any other name (in particular the `'relation_masking'`
key that `parse_data` actually stores) is silently dropped. -/
def readySupplementalNames (supplemental : Dict String (List SuppVal)) : List String :=
  (supplemental.map Prod.fst).filter
    (fun name => name == "relation_masks" || name == "binary_labels" || name == "triple")

/-- The `rel2id` attribute as read through `self.rel2id` on a `Batcher`
instance: `Batcher.__init__` (lines 282-296) assigns `id2label`,
`triple2id_fn`, `batch_size`, `is_eval`, `config`, `labels`,
`num_examples` and `batches`, and nothing in the source ever assigns
`rel2id`, so the attribute read fails (`none`, a Python
`AttributeError`) on every instance. -/
def batcherRel2id : Option (Dict String Nat) := none

/-- `Batcher.ready_relation_masks_batch` (lines 364-375): the first
statement reads `self.rel2id` — an attribute never assigned on
`Batcher` (see `batcherRel2id`), so the read is an `Option` whose
`none` case is the `AttributeError` the source raises. When bound, sort
the per-example known-relation sets by sentence length and turn each
into a multi-hot vector of width `len(rel2id)`. -/
def ready_relation_masks_batch (rel2id : Option (Dict String Nat))
    (mask_batch : List (List Nat)) (sentence_lengths : List Nat) :
    Except String (List (List Nat)) :=
  match rel2id with
  | none => .error "AttributeError: Batcher object has no attribute rel2id"
  | some r2i =>
    let num_rel := r2i.length
    let known_relations := (sort_all mask_batch sentence_lengths).1
    .ok (known_relations.map (fun sample_labels => multiHot num_rel sample_labels))

/-- `Batcher.ready_binary_labels_batch` (lines 377-393): the first
statement reads `self.rel2id` — an attribute never assigned on
`Batcher` (see `batcherRel2id`), so the read is an `Option` whose
`none` case is the `AttributeError` the source raises. When bound,
sort the per-example labels by sentence length; each label becomes a
multi-hot vector of width `len(rel2id) - 1`, and a label not below that
width (the reserved last index, `no_relation`) sets no bit — the
`if label < num_rel` guard of line 388. -/
def ready_binary_labels_batch (rel2id : Option (Dict String Nat))
    (label_batch : List Nat) (sentence_lengths : List Nat) :
    Except String (List (List Nat)) :=
  match rel2id with
  | none => .error "AttributeError: Batcher object has no attribute rel2id"
  | some r2i =>
    let num_rel := r2i.length - 1
    let batch_labels := (sort_all label_batch sentence_lengths).1
    .ok (batch_labels.map (fun label =>
      multiHot num_rel (if label < num_rel then [label] else [])))

/-- The four recognized curriculum stages (`create_iterator`, lines
228-245); an unrecognized stage string raises `ValueError` in Python
and is excluded by this closed type. -/
inductive CurriculumStage where
  | binary
  | subj_type
  | subj_obj_type
  | full
deriving DecidableEq, Repr

/-- The per-stage lookup of `create_iterator` (lines 228-261): apply
`triple2id_fn` to the match triple, look the result up in `id2label`,
then collect the matched relation ids from `label2id` (projecting
triples to their relation component for the `subj_obj_type` stage).
Failed lookups are Python `KeyError`s. -/
def stageMatchedIds (pr : ParseResult) (stage : CurriculumStage) (triple : Nat × Nat × Nat) :
    Except String (List Nat) :=
  match stage with
  | .binary =>
    match pr.rel2binary_rel.lookup triple.2.1 with
    | none => .error "KeyError: id2label"
    | some label =>
      match pr.state.binary_rel2rels.lookup label with
      | none => .error "KeyError: label2id"
      | some ids => .ok ids
  | .subj_type =>
    match pr.rel2subj.lookup triple.2.1 with
    | none => .error "KeyError: id2label"
    | some label =>
      match pr.state.subj2rels.lookup label with
      | none => .error "KeyError: label2id"
      | some ids => .ok ids
  | .subj_obj_type =>
    match pr.triple2subj_obj.lookup triple with
    | none => .error "KeyError: id2label"
    | some label =>
      match pr.state.subj_obj2triples.lookup label with
      | none => .error "KeyError: label2id"
      | some triples => .ok (triples.map (fun t => t.2.1))
  | .full =>
    match pr.id2rel.lookup triple.2.1 with
    | none => .error "KeyError: id2label"
    | some label =>
      match pr.rel2ids.lookup label with
      | none => .error "KeyError: label2id"
      | some ids => .ok ids

/-- The per-sample enrichment of the `create_iterator` loop (lines
247-272), on sample values (the deep-copy aliasing discipline is
modelled separately by `create_iterator_loop`): add the multi-hot
`activated_relations` vector over the matched ids (`np.unique` sorts
and deduplicates; only membership matters to the multi-hot vector, so
`dedup` suffices), and replace the `relation_masking` triple by the
known-relations set from the entity-pair graph when masking is enabled.
`iterCfg` is the `config` argument of `create_iterator`, whose
`relation_masking` flag gates the replacement (line 268). -/
def enrichSample (iterCfg : Config) (pr : ParseResult) (stage : CurriculumStage)
    (sample : Sample) : Except String Sample :=
  match stageMatchedIds pr stage
      (sample.base.subj_id, sample.base.relation, sample.base.obj_id) with
  | .error e => .error e
  | .ok matched_ids =>
    let activated := multiHot pr.num_rel matched_ids.dedup
    let base' := { sample.base with activated_relations := some activated }
    if iterCfg.relation_masking then
      match sample.supplemental.lookup "relation_masking" with
      | some (SuppVal.maskTriple (s, _, o)) =>
        match pr.state.graph.lookup (s, o) with
        | none => .error "KeyError: graph"
        | some known =>
          .ok { base := base',
                supplemental := dictInsert sample.supplemental "relation_masking"
                  (SuppVal.maskKnown known) }
      | some _ => .error "TypeError: relation_masking is not a triple"
      | none => .error "KeyError: relation_masking"
    else
      .ok { base := base', supplemental := sample.supplemental }

/-- The enrichment pass of `create_iterator` over a partition's samples
(value level; each Python iteration deep-copies before mutating, so the
result list is built from fresh values). -/
def create_iterator_samples (iterCfg : Config) (pr : ParseResult) (stage : CurriculumStage) :
    List Sample → Except String (List Sample)
  | [] => .ok []
  | s :: rest =>
    match enrichSample iterCfg pr stage s, create_iterator_samples iterCfg pr stage rest with
    | .ok s', .ok rest' => .ok (s' :: rest')
    | .error e, _ => .error e
    | _, .error e => .error e

/-- The enumerated loop of `DataProcessor.group_by_class`: `i` is the
running example position. -/
def groupByClassAux : Nat → List Sample → Dict Nat (List Nat) → Dict Nat (List Nat)
  | _, [], m => m
  | i, s :: rest, m =>
    groupByClassAux (i + 1) rest
      (match m.lookup s.base.relation with
       | some idxs => dictInsert m s.base.relation (idxs ++ [i])
       | none => m ++ [(s.base.relation, [i])])

/-- `DataProcessor.group_by_class` (lines 201-208): map each relation id
to the list of positions of its examples, in first-occurrence order. -/
def group_by_class (data : List Sample) : Dict Nat (List Nat) :=
  groupByClassAux 0 data []

/-- `DataProcessor.distribute_sample_size` (lines 210-219): every
relation id gets `sample_size / num_relations` slots (Python
`int(sample_size / len(rel2id))`), plus one bonus slot for the ids in
`bonus` — the explicit model of `np.random.choice(num_relations,
remainder, replace=False)`. -/
def distribute_sample_size (rel2id : Dict String Nat) (sample_size : Nat)
    (bonus : List Nat) : Dict Nat Nat :=
  let class_sample_size := sample_size / rel2id.length
  rel2id.map (fun p => (p.2, class_sample_size + (if bonus.contains p.2 then 1 else 0)))

/-- `DataProcessor.sample_by_class` (lines 193-199): for each relation,
draw `min(class2size[relation], len(indices))` indices without
replacement; the draw `np.random.choice(indices, k, replace=False)` is
the explicit parameter `choose`. A relation of the data absent from
`class2size` is a Python `KeyError` (`none`). -/
def mapOption (f : α → Option β) : List α → Option (List β)
  | [] => some []
  | a :: l =>
    match f a, mapOption f l with
    | some b, some rest => some (b :: rest)
    | _, _ => none

def sample_by_class (choose : List Nat → Nat → List Nat)
    (class2indices : Dict Nat (List Nat)) (class2size : Dict Nat Nat) :
    Option (Dict Nat (List Nat)) :=
  mapOption (fun p =>
    (class2size.lookup p.1).map (fun q => (p.1, choose p.2 (min q p.2.length)))) class2indices

/-- `DataProcessor.aggregate_sample_indices` (lines 186-191):
concatenate the per-relation index draws. (Python `np.concatenate`
raises on an empty collection; the modelled flows have data.) -/
def aggregate_sample_indices (class2sample : Dict Nat (List Nat)) : List Nat :=
  (class2sample.map Prod.snd).flatten

/-- `DataProcessor.perform_stratified_sampling` (lines 177-184):
allocate per-relation quotas, group the data by relation, draw per
relation, and gather the drawn indices back into samples. -/
def perform_stratified_sampling (choose : List Nat → Nat → List Nat)
    (rel2id : Dict String Nat) (sample_size : Nat) (bonus : List Nat)
    (data : List Sample) : Option (List Sample) := do
  let class2size := distribute_sample_size rel2id sample_size bonus
  let class2indices := group_by_class data
  let class2sample ← sample_by_class choose class2indices class2size
  let sample_indices := aggregate_sample_indices class2sample
  mapOption (fun i => data[i]?) sample_indices

/-- A heap of samples: `create_iterator`'s aliasing discipline is made
observable by addressing samples through a store. `next` is the first
unallocated address; all live partition addresses are below it. -/
structure Heap where
  store : Nat → Sample
  next : Nat

/-- `copy.deepcopy(raw_sample)` (line 248): allocate a fresh address
holding a copy of the addressed value. -/
def heapDeepcopy (h : Heap) (a : Nat) : Heap × Nat :=
  ({ store := fun x => if x = h.next then h.store a else h.store x, next := h.next + 1 },
   h.next)

/-- An in-place sample mutation (`sample['base']['activated_relations'] = ...`,
`sample['supplemental']['relation_masking'] = ...`): overwrite one address. -/
def heapWrite (h : Heap) (a : Nat) (v : Sample) : Heap :=
  { h with store := fun x => if x = a then v else h.store x }

/-- The `create_iterator` loop (lines 247-272) at the heap level: for
each partition address, deep-copy the sample to a fresh address and
mutate only the copy (the `enrich` parameter is the value-level
enrichment, e.g. `enrichSample` after resolving its lookups); the
returned address list is the `cleaned_data` handed to the `Batcher`,
which shuffles that list only (a list-level permutation, no store
access). -/
def create_iterator_loop (enrich : Sample → Sample) (h : Heap) :
    List Nat → Heap × List Nat
  | [] => (h, [])
  | a :: rest =>
    let copied := heapDeepcopy h a
    let h2 := heapWrite copied.1 copied.2 (enrich (copied.1.store copied.2))
    let tail := create_iterator_loop enrich h2 rest
    (tail.1, copied.2 :: tail.2)

/-- The sorted rows `(len_j, j, payload_j)` built inside `sort_all`;
`sort_all` projects its two outputs from this list. -/
def sortRows (batch : List α) (lens : List Nat) : List (Nat × Nat × α) :=
  List.insertionSort rowBefore (lens.zip ((List.range lens.length).zip batch))

/-- Place the sorted output item at position `i` back at position
`orig_idx[i]` of an `n`-slot buffer (the downstream order-restoration
step that `orig_idx` exists for). -/
def scatterByOrigIdx (sortedVals : List α) (orig_idx : List Nat) (n : Nat) :
    List (Option α) :=
  (orig_idx.zip sortedVals).foldl (fun acc p => acc.set p.1 (some p.2))
    (List.replicate n none)

/-- Membership of a relation id in one bucket of a label→set map. -/
def bucketHas (m : Dict String (List Nat)) (k : String) (v : Nat) : Prop :=
  ∃ s, m.lookup k = some s ∧ v ∈ s

/-- All the record fields that `parse_data` reads with `d[...]` are
present. -/
def requiredFieldsPresent (d : RawRecord) : Prop :=
  d.token.isSome = true ∧ d.subj_start.isSome = true ∧ d.subj_end.isSome = true ∧
  d.obj_start.isSome = true ∧ d.obj_end.isSome = true ∧ d.subj_type.isSome = true ∧
  d.obj_type.isSome = true ∧ d.stanford_pos.isSome = true ∧
  d.stanford_ner.isSome = true ∧ d.stanford_deprel.isSome = true ∧
  d.relation.isSome = true

/-- The synthetic entity-type tokens of the record are in the
vocabulary (lines 56-57 index `ent2id` directly). -/
def entityTypesKnown (st : ProcState) (d : RawRecord) : Prop :=
  (∀ ty, d.subj_type = some ty → (st.ent2id.lookup ("SUBJ-" ++ ty)).isSome = true) ∧
  (∀ ty, d.obj_type = some ty → (st.ent2id.lookup ("OBJ-" ++ ty)).isSome = true)

/-- The evaluation-partition flow from raw records to `Batcher.batches`
(`create_iterator` on a non-train partition: no shuffling, no
stratified sampling), ending before `ready_data_batch`. The error
branches yield `[]`; the concrete flows below are shown to take the
success path by evaluation. -/
def pipelineBatches (cfg : Config) (st : ProcState) (records : List RawRecord)
    (stage : CurriculumStage) (batch_size : Nat) : List DataBatch :=
  match parse_data cfg st records with
  | .error _ => []
  | .ok pr =>
    match create_iterator_samples cfg pr stage pr.samples with
    | .error _ => []
    | .ok samples => create_batches samples batch_size

/-- A small concrete vocabulary for the closed test inputs. -/
def entVocab : Dict String Nat :=
  [("SUBJ-X", 2), ("OBJ-Y", 3), ("OBJ-Z", 4), ("a", 5), ("b", 6)]

/-- Initial processor state over `entVocab` (tag vocabularies empty:
out-of-vocabulary tags map to `UNK_ID`, never failing). -/
def vocabState : ProcState :=
  { ent2id := entVocab, pos2id := [], ner2id := [], deprel2id := [] }

/-- A configuration with relation masking enabled. -/
def maskCfg : Config := { lower := false, typed_relations := false, relation_masking := true }

/-- A well-formed concrete record. -/
def sampleRecord : RawRecord :=
  { token := some ["a", "b"], subj_start := some 0, subj_end := some 0,
    obj_start := some 1, obj_end := some 1, subj_type := some "X", obj_type := some "Y",
    stanford_pos := some ["p", "q"], stanford_ner := some ["n", "n"],
    stanford_deprel := some ["d", "d"], relation := some "no_relation" }

/-- `sampleRecord` with subject span `[5, 6]`, far outside its 2-token
sentence: `0 ≤ start ≤ end < len(tokens)` is violated. -/
def badSpanRecord : RawRecord := { sampleRecord with subj_start := some 5, subj_end := some 6 }

/-- The parse result of the concrete one-record corpus (the success
branch is taken; the fallback is never evaluated). -/
def cParseResult : ParseResult :=
  match parse_data maskCfg vocabState [sampleRecord] with
  | .ok pr => pr
  | .error _ => default

/-- A second record over the same subject type and a new object type
`Z`, labelled with a fresh relation `r1`: the triple product then
contains combinations never observed in the data. -/
def sampleRecord2 : RawRecord :=
  { sampleRecord with obj_type := some "Z", relation := some "r1" }

/-- The parse result of the two-record corpus (the success branch is
taken; the fallback is never evaluated). -/
def cParseResult2 : ParseResult :=
  match parse_data maskCfg vocabState [sampleRecord, sampleRecord2] with
  | .ok pr => pr
  | .error _ => default

/-- The `parseRecords` output on the one-record corpus (the success
branch is taken; the fallback is never evaluated). -/
def cParsedPair : List Sample × ProcState :=
  match parseRecords maskCfg vocabState [sampleRecord] with
  | .ok p => p
  | .error _ => ([], vocabState)

/-- A minimal sample with the given relation id, for the sampling
counterexample. -/
def mkSample (rel : Nat) : Sample :=
  { base := { tokens := [], pos := [], ner := [], deprel := [], subj_positions := [],
              obj_positions := [], relation := rel, subj_id := 0, obj_id := 0 },
    supplemental := [] }

/-- Four examples: three of relation 0, one of relation 1. -/
def c3Data : List Sample := [mkSample 0, mkSample 0, mkSample 0, mkSample 1]

/-- Two relations, `no_relation` first. -/
def c3Rel2id : Dict String Nat := [("no_relation", 0), ("r1", 1)]

/-- A three-relation id map with `no_relation` reserved at the final
index, for the counterfactual evaluation in the C2 evidence. -/
def c2Rel2id : Dict String Nat := [("r0", 0), ("r1", 1), ("no_relation", 2)]

/-- A deterministic without-replacement draw (a valid instance of
`np.random.choice(indices, k, replace=False)`): take the first `k`. -/
def takeChoose (idxs : List Nat) (k : Nat) : List Nat := idxs.take k

/-- A one-sample heap for the frame-effect witness. -/
def heap0 : Heap := { store := fun _ => mkSample 0, next := 1 }

/-- A concrete enrichment mutation (adds an activated-relations vector),
for the frame-effect witness. -/
def enrich0 (s : Sample) : Sample :=
  { s with base := { s.base with activated_relations := some [1] } }

section DictLemmas

variable {α β : Type} [BEq α] [LawfulBEq α]

theorem lookup_append_cases (l₁ l₂ : Dict α β) (k : α) :
    (l₁ ++ l₂).lookup k = match l₁.lookup k with
      | some v => some v
      | none => l₂.lookup k := by
  induction l₁ with
  | nil => simp [List.lookup]
  | cons p t ih =>
    rcases p with ⟨a, b⟩
    cases h : k == a with
    | true => simp [List.lookup, h]
    | false => simpa [List.lookup, h] using ih

theorem lookup_eq_some_mem (l : Dict α β) (k : α) (v : β) (h : l.lookup k = some v) :
    (k, v) ∈ l := by
  induction l with
  | nil => simp [List.lookup] at h
  | cons p t ih =>
    rcases p with ⟨a, b⟩
    cases hk : k == a with
    | true =>
      simp [List.lookup, hk] at h
      subst h
      simp [(by simpa using hk : k = a)]
    | false =>
      simp [List.lookup, hk] at h
      exact List.mem_cons_of_mem _ (ih h)

theorem lookup_map_cond (t : Dict α β) (k : α) (v : β) (k' : α) :
    (t.map (fun p => bif p.1 == k then (k, v) else p)).lookup k' =
      bif k' == k then (bif (t.lookup k).isSome then some v else none)
      else t.lookup k' := by
  induction t with
  | nil => cases hk : k' == k <;> simp [List.lookup, hk]
  | cons p t ih =>
    rcases p with ⟨a, b⟩
    cases ha : a == k with
    | true =>
      have hak : a = k := by simpa using ha
      subst hak
      cases hk : k' == a with
      | true =>
        have : k' = a := by simpa using hk
        subst this
        simp [List.lookup, ha, hk]
      | false => simpa [List.lookup, ha, hk] using ih
    | false =>
      cases hk' : k' == a with
      | true =>
        have hk'a : k' = a := by simpa using hk'
        subst hk'a
        have hkk : (k' == k) = false := ha
        simp [List.lookup, ha, hk', hkk]
      | false =>
        have hka : (k == a) = false := by
          cases hkb : k == a with
          | true =>
            exfalso
            exact absurd (by simpa using hkb : k = a) (fun he => by simp [he] at ha)
          | false => rfl
        simpa [List.lookup, ha, hk', hka] using ih

theorem lookup_dictInsert_self (m : Dict α β) (k : α) (v : β) :
    (dictInsert m k v).lookup k = some v := by
  by_cases hp : (m.lookup k).isSome
  · rw [dictInsert, if_pos hp, lookup_map_cond]
    simp [hp]
  · rw [dictInsert, if_neg hp, lookup_append_cases]
    cases hl : m.lookup k with
    | some v' => simp [hl] at hp
    | none => simp [List.lookup]

theorem lookup_dictInsert_ne (m : Dict α β) (k : α) (v : β) (k' : α) (h : ¬ k' = k) :
    (dictInsert m k v).lookup k' = m.lookup k' := by
  have hb : (k' == k) = false := by simpa using h
  by_cases hp : (m.lookup k).isSome
  · rw [dictInsert, if_pos hp, lookup_map_cond]
    simp [hb]
  · rw [dictInsert, if_neg hp, lookup_append_cases]
    cases hl : m.lookup k' with
    | some v' => simp [hl]
    | none => simp [hl, List.lookup, hb]

theorem lookup_addToSet_found [BEq β] (m : Dict α (List β)) (k : α) (v : β)
    (s : List β) (hl : m.lookup k = some s) :
    (addToSet m k v).lookup k = some (if s.contains v then s else s ++ [v]) := by
  unfold addToSet
  rw [hl]
  exact lookup_dictInsert_self m k _

theorem lookup_addToSet_missing [BEq β] (m : Dict α (List β)) (k : α) (v : β)
    (hl : m.lookup k = none) :
    (addToSet m k v).lookup k = some [v] := by
  unfold addToSet
  rw [hl, lookup_append_cases, hl]
  simp [List.lookup]

theorem lookup_addToSet_ne [BEq β] (m : Dict α (List β)) (k : α) (v : β) (k' : α)
    (h : ¬ k' = k) : (addToSet m k v).lookup k' = m.lookup k' := by
  have hb : (k' == k) = false := by simpa using h
  unfold addToSet
  cases hl : m.lookup k with
  | some s => exact lookup_dictInsert_ne m k _ k' h
  | none =>
    rw [lookup_append_cases]
    cases hl' : m.lookup k' with
    | some v' => simp [hl']
    | none => simp [hl', List.lookup, hb]

theorem exists_lookup_addToSet_iff [BEq β] [LawfulBEq β] (m : Dict α (List β)) (k : α)
    (v : β) (k' : α) (x : β) :
    (∃ s, (addToSet m k v).lookup k' = some s ∧ x ∈ s) ↔
      ((k' = k ∧ x = v) ∨ ∃ s, m.lookup k' = some s ∧ x ∈ s) := by
  have hmemT : ∀ (T : List β), (∃ s', some T = some s' ∧ x ∈ s') ↔ x ∈ T := by
    intro T
    constructor
    · rintro ⟨s', hs', hx⟩
      cases hs'
      exact hx
    · intro hx
      exact ⟨T, rfl, hx⟩
  by_cases hk : k' = k
  · subst hk
    cases hl : m.lookup k' with
    | some s =>
      rw [lookup_addToSet_found m k' v s hl]
      by_cases hc : s.contains v
      · have hv : v ∈ s := by simpa using hc
        rw [if_pos hc, hmemT s]
        constructor
        · intro hx
          exact Or.inr hx
        · rintro (⟨-, hxv⟩ | hx)
          · subst hxv
            exact hv
          · exact hx
      · rw [if_neg hc, hmemT (s ++ [v]), hmemT s]
        constructor
        · intro hx
          rcases List.mem_append.mp hx with hx | hx
          · exact Or.inr hx
          · exact Or.inl ⟨rfl, by simpa using hx⟩
        · rintro (⟨-, hxv⟩ | hx)
          · subst hxv
            simp
          · exact List.mem_append.mpr (Or.inl hx)
    | none =>
      rw [lookup_addToSet_missing m k' v hl, hmemT [v]]
      constructor
      · intro hx
        exact Or.inl ⟨rfl, by simpa using hx⟩
      · rintro (⟨-, hxv⟩ | ⟨s', hs', hx⟩)
        · subst hxv
          simp
        · simp at hs'
  · rw [lookup_addToSet_ne m k v k' hk]
    simp [hk]

end DictLemmas


theorem multiHot_length (n : Nat) (idxs : List Nat) : (multiHot n idxs).length = n := by
  simp [multiHot]

theorem multiHot_getElem (n : Nat) (idxs : List Nat) (i : Nat) (h : i < n) :
    (multiHot n idxs)[i]? = some (if idxs.contains i then 1 else 0) := by
  simp [multiHot, List.getElem?_range h]

theorem mem_multiHot_nil (n : Nat) : ∀ x ∈ multiHot n [], x = 0 := by
  intro x hx
  rcases List.mem_map.mp hx with ⟨a, -, ha⟩
  simpa using ha.symm

/-- Claim C8: for every span with `0 ≤ start ≤ end < length`,
`get_positions start end length` has exactly `length` entries; entries
in `[start, end]` are `0`, the entry `k` steps before `start` is `-k`
(i.e. position `i < start` holds `i - start`), and the entry `k` steps
after `end` is `k` (position `i > end` holds `i - end`). -/
theorem claim8_get_positions (start_idx end_idx length : Nat)
    (h1 : start_idx ≤ end_idx) (h2 : end_idx < length) :
    (get_positions start_idx end_idx length).length = length ∧
    ∀ i, i < length →
      (get_positions start_idx end_idx length)[i]? =
        some (if i < start_idx then (i : Int) - (start_idx : Int)
              else if i ≤ end_idx then 0
              else (i : Int) - (end_idx : Int)) := by
  constructor
  · simp only [get_positions, List.length_append, List.length_map, List.length_range,
      List.length_replicate]
    omega
  · intro i hi
    rw [get_positions, List.getElem?_append, List.getElem?_append]
    by_cases hA : i < start_idx
    · rw [if_pos (by simp only [List.length_append, List.length_map, List.length_range,
        List.length_replicate]; omega)]
      rw [if_pos (by simp only [List.length_map, List.length_range]; omega)]
      rw [if_pos hA]
      rw [List.getElem?_map, List.getElem?_range hA]
      rfl
    · by_cases hB : i ≤ end_idx
      · rw [if_pos (by simp only [List.length_append, List.length_map, List.length_range,
          List.length_replicate]; omega)]
        rw [if_neg (by simp only [List.length_map, List.length_range]; omega)]
        rw [if_neg hA, if_pos hB]
        simp only [List.length_map, List.length_range, List.getElem?_replicate]
        rw [if_pos (by omega)]
      · rw [if_neg (by simp only [List.length_append, List.length_map, List.length_range,
          List.length_replicate]; omega)]
        rw [if_neg hA, if_neg hB]
        simp only [List.length_append, List.length_map, List.length_range,
          List.length_replicate]
        have hidx : i - (start_idx + (end_idx + 1 - start_idx)) = i - end_idx - 1 := by omega
        rw [hidx, List.getElem?_map, List.getElem?_range (by omega)]
        have hcast : ((i - end_idx - 1 : Nat) : Int) + 1 = (i : Int) - (end_idx : Int) := by
          omega
        simp [hcast]

/-- Claim C8 witness: the theorem at `start = 1`, `end = 2`,
`length = 5`. -/
theorem claim8_get_positions_witness :
    (get_positions 1 2 5).length = 5 ∧
    ∀ i : Nat, i < 5 →
      (get_positions 1 2 5)[i]? =
        some (if i < 1 then (i : Int) - ((1 : Nat) : Int)
              else if i ≤ 2 then 0 else (i : Int) - ((2 : Nat) : Int)) :=
  claim8_get_positions 1 2 5 (by decide) (by decide)

/-- Claim C9: processing a relation name adds its relation id to the
`per:relation` bucket exactly when `"per"` occurs in the name, to the
`org:relation` bucket exactly when `"per"` does not occur but `"org"`
does, and otherwise (in particular for `no_relation`) to the
`no_relation` bucket — the `per` test is applied before the `org` test.
Stated extensionally over any prior bucket state. -/
theorem claim9_updateSubjRels (m : Dict String (List Nat)) (relation_name : String)
    (relation_id : Nat) :
    (bucketHas (updateSubjRels m relation_name relation_id) "per:relation" relation_id ↔
      ("per".data <:+: relation_name.data ∨ bucketHas m "per:relation" relation_id)) ∧
    (bucketHas (updateSubjRels m relation_name relation_id) "org:relation" relation_id ↔
      ((¬ "per".data <:+: relation_name.data ∧ "org".data <:+: relation_name.data) ∨
        bucketHas m "org:relation" relation_id)) ∧
    (bucketHas (updateSubjRels m relation_name relation_id) "no_relation" relation_id ↔
      ((¬ "per".data <:+: relation_name.data ∧ ¬ "org".data <:+: relation_name.data) ∨
        bucketHas m "no_relation" relation_id)) := by
  have hdecide : ∀ needle : String, containsSub needle relation_name = true ↔
      needle.data <:+: relation_name.data := by
    intro needle
    simp [containsSub]
  unfold updateSubjRels bucketHas
  by_cases hper : containsSub "per" relation_name
  · have hper' : "per".data <:+: relation_name.data := (hdecide "per").mp hper
    rw [if_pos hper]
    refine ⟨?_, ?_, ?_⟩
    · rw [exists_lookup_addToSet_iff]
      simp [hper']
    · rw [exists_lookup_addToSet_iff]
      simp [hper', show ¬("org:relation" : String) = "per:relation" from by decide]
    · rw [exists_lookup_addToSet_iff]
      simp [hper', show ¬("no_relation" : String) = "per:relation" from by decide]
  · have hper' : ¬ "per".data <:+: relation_name.data := fun hc =>
      hper ((hdecide "per").mpr hc)
    rw [if_neg hper]
    by_cases horg : containsSub "org" relation_name
    · have horg' : "org".data <:+: relation_name.data := (hdecide "org").mp horg
      rw [if_pos horg]
      refine ⟨?_, ?_, ?_⟩
      · rw [exists_lookup_addToSet_iff]
        simp [hper', show ¬("per:relation" : String) = "org:relation" from by decide]
      · rw [exists_lookup_addToSet_iff]
        simp [hper', horg']
      · rw [exists_lookup_addToSet_iff]
        simp [horg', show ¬("no_relation" : String) = "org:relation" from by decide]
    · have horg' : ¬ "org".data <:+: relation_name.data := fun hc =>
        horg ((hdecide "org").mpr hc)
      rw [if_neg horg]
      refine ⟨?_, ?_, ?_⟩
      · rw [exists_lookup_addToSet_iff]
        simp [hper', show ¬("per:relation" : String) = "no_relation" from by decide]
      · rw [exists_lookup_addToSet_iff]
        simp [hper', horg', show ¬("org:relation" : String) = "no_relation" from by decide]
      · rw [exists_lookup_addToSet_iff]
        simp [hper', horg']

/-- Claim C9 witness: the grouping rule at the empty prior state for
the relation name `per:title` (which contains `per`). -/
theorem claim9_updateSubjRels_witness :
    (bucketHas (updateSubjRels [] "per:title" 7) "per:relation" 7 ↔
      ("per".data <:+: "per:title".data ∨ bucketHas [] "per:relation" 7)) ∧
    (bucketHas (updateSubjRels [] "per:title" 7) "org:relation" 7 ↔
      ((¬ "per".data <:+: "per:title".data ∧ "org".data <:+: "per:title".data) ∨
        bucketHas [] "org:relation" 7)) ∧
    (bucketHas (updateSubjRels [] "per:title" 7) "no_relation" 7 ↔
      ((¬ "per".data <:+: "per:title".data ∧ ¬ "org".data <:+: "per:title".data) ∨
        bucketHas [] "no_relation" 7)) :=
  claim9_updateSubjRels [] "per:title" 7

theorem sort_all_eq (batch : List α) (lens : List Nat) :
    sort_all batch lens =
      ((sortRows batch lens).map (fun r => r.2.2),
       (sortRows batch lens).map (fun r => r.2.1)) := rfl

theorem sortRows_perm (batch : List α) (lens : List Nat) :
    List.Perm (sortRows batch lens) (lens.zip ((List.range lens.length).zip batch)) :=
  List.perm_insertionSort _ _

theorem sortRows_sorted (batch : List α) (lens : List Nat) :
    List.Sorted rowBefore (sortRows batch lens) :=
  List.sorted_insertionSort _ _

theorem rows_mem_char (batch : List α) (lens : List Nat) (h : lens.length = batch.length)
    (r : Nat × Nat × α) (hr : r ∈ lens.zip ((List.range lens.length).zip batch)) :
    r.2.1 < lens.length ∧ lens[r.2.1]? = some r.1 ∧ batch[r.2.1]? = some r.2.2 := by
  rcases List.mem_iff_getElem.mp hr with ⟨k, hk, hget⟩
  have hlenz : (lens.zip ((List.range lens.length).zip batch)).length = lens.length := by
    rw [List.length_zip, List.length_zip, List.length_range, ← h]
    omega
  have hk' : k < lens.length := by
    rw [hlenz] at hk
    exact hk
  rw [List.getElem_zip, List.getElem_zip, List.getElem_range] at hget
  subst hget
  refine ⟨hk', ?_, ?_⟩
  · exact List.getElem?_eq_getElem hk'
  · exact List.getElem?_eq_getElem (show k < batch.length by omega)

theorem origIdx_perm_range (batch : List α) (lens : List Nat)
    (h : lens.length = batch.length) :
    List.Perm (sort_all batch lens).2 (List.range lens.length) := by
  rw [sort_all_eq]
  have h1 : List.Perm ((sortRows batch lens).map (fun r => r.2.1))
      ((lens.zip ((List.range lens.length).zip batch)).map (fun r => r.2.1)) :=
    (sortRows_perm batch lens).map _
  have hlen1 : ((List.range lens.length).zip batch).length = lens.length := by
    rw [List.length_zip, List.length_range, ← h]
    omega
  have h2 : (lens.zip ((List.range lens.length).zip batch)).map
      (fun (r : Nat × Nat × α) => r.2.1) = List.range lens.length := by
    have hc : (fun (r : Nat × Nat × α) => r.2.1) = Prod.fst ∘ Prod.snd := rfl
    rw [hc, ← List.map_map, List.map_snd_zip _ _ (le_of_eq hlen1),
      List.map_fst_zip _ _ (by rw [List.length_range, h])]
  rw [h2] at h1
  exact h1

theorem sort_all_fst_perm (batch : List α) (lens : List Nat)
    (h : lens.length = batch.length) :
    List.Perm (sort_all batch lens).1 batch := by
  rw [sort_all_eq]
  have h1 : List.Perm ((sortRows batch lens).map (fun r => r.2.2))
      ((lens.zip ((List.range lens.length).zip batch)).map (fun r => r.2.2)) :=
    (sortRows_perm batch lens).map _
  have hlen1 : ((List.range lens.length).zip batch).length = lens.length := by
    rw [List.length_zip, List.length_range, ← h]
    omega
  have h2 : (lens.zip ((List.range lens.length).zip batch)).map
      (fun (r : Nat × Nat × α) => r.2.2) = batch := by
    have hc : (fun (r : Nat × Nat × α) => r.2.2) = Prod.snd ∘ Prod.snd := rfl
    rw [hc, ← List.map_map, List.map_snd_zip _ _ (le_of_eq hlen1),
      List.map_snd_zip _ _ (by rw [List.length_range, h])]
  rw [h2] at h1
  exact h1

theorem foldl_set_getElem (ps : List (Nat × α)) (acc : List (Option α)) (j : Nat)
    (hnd : (ps.map Prod.fst).Nodup) (hb : ∀ p ∈ ps, p.1 < acc.length) :
    (ps.foldl (fun a p => a.set p.1 (some p.2)) acc)[j]? =
      match ps.find? (fun p => p.1 == j) with
      | some p => some (some p.2)
      | none => acc[j]? := by
  induction ps generalizing acc with
  | nil => simp
  | cons p t ih =>
    have hmapcons : (p :: t).map Prod.fst = p.1 :: t.map Prod.fst := rfl
    rw [hmapcons] at hnd
    have hnotin : p.1 ∉ t.map Prod.fst := (List.nodup_cons.mp hnd).1
    have hnd' : (t.map Prod.fst).Nodup := (List.nodup_cons.mp hnd).2
    have hb' : ∀ q ∈ t, q.1 < (acc.set p.1 (some p.2)).length := by
      intro q hq
      rw [List.length_set]
      exact hb q (List.mem_cons_of_mem _ hq)
    rw [List.foldl_cons, ih _ hnd' hb']
    by_cases hpj : p.1 = j
    · subst hpj
      have hfind_t : t.find? (fun q => q.1 == p.1) = none := by
        rw [List.find?_eq_none]
        intro q hq
        simp only [beq_iff_eq]
        intro hqe
        exact hnotin (List.mem_map.mpr ⟨q, hq, hqe⟩)
      have hfind_c : (p :: t).find? (fun q => q.1 == p.1) = some p := by
        simp [List.find?]
      rw [hfind_t, hfind_c]
      exact List.getElem?_set_self (hb p (List.mem_cons_self p t))
    · have hfp : ((fun (q : Nat × α) => q.1 == j) p) = false := by
        simpa using hpj
      have hfind_c : (p :: t).find? (fun q => q.1 == j) = t.find? (fun q => q.1 == j) := by
        simp [List.find?, hfp]
      rw [hfind_c]
      cases hf : t.find? (fun q => q.1 == j) with
      | some q => rfl
      | none => exact List.getElem?_set_ne hpj

/-- Claim C7: for every batch whose length list matches the payload
list, placing the length-sorted output item at sorted position `i` back
at position `orig_idx[i]` of a fresh buffer rebuilds exactly the
pre-sort example list. -/
theorem claim7_sort_all_roundtrip (batch : List α) (lens : List Nat)
    (h : lens.length = batch.length) :
    scatterByOrigIdx (sort_all batch lens).1 (sort_all batch lens).2 batch.length =
      batch.map some := by
  have hzip : (sort_all batch lens).2.zip (sort_all batch lens).1 =
      (sortRows batch lens).map (fun r => (r.2.1, r.2.2)) := by
    rw [sort_all_eq]
    exact List.zip_map' _ _ _
  unfold scatterByOrigIdx
  rw [hzip]
  have hmem : ∀ q ∈ (sortRows batch lens).map (fun (r : Nat × Nat × α) => (r.2.1, r.2.2)),
      q.1 < lens.length ∧ batch[q.1]? = some q.2 := by
    intro q hq
    rcases List.mem_map.mp hq with ⟨r, hr, hqe⟩
    have hr' : r ∈ lens.zip ((List.range lens.length).zip batch) :=
      (sortRows_perm batch lens).mem_iff.mp hr
    have hchar := rows_mem_char batch lens h r hr'
    subst hqe
    exact ⟨hchar.1, hchar.2.2⟩
  have hfst : ((sortRows batch lens).map (fun (r : Nat × Nat × α) =>
      (r.2.1, r.2.2))).map Prod.fst = (sort_all batch lens).2 := by
    rw [sort_all_eq, List.map_map]
    rfl
  have hnd : (((sortRows batch lens).map (fun (r : Nat × Nat × α) =>
      (r.2.1, r.2.2))).map Prod.fst).Nodup := by
    rw [hfst]
    exact (origIdx_perm_range batch lens h).nodup_iff.mpr (List.nodup_range _)
  have hb : ∀ p ∈ (sortRows batch lens).map (fun (r : Nat × Nat × α) => (r.2.1, r.2.2)),
      p.1 < (List.replicate batch.length (none : Option α)).length := by
    intro p hp
    rw [List.length_replicate, ← h]
    exact (hmem p hp).1
  apply List.ext_getElem?
  intro j
  rw [foldl_set_getElem _ _ _ hnd hb]
  by_cases hj : j < batch.length
  · have hjmem : j ∈ ((sortRows batch lens).map (fun (r : Nat × Nat × α) =>
        (r.2.1, r.2.2))).map Prod.fst := by
      rw [hfst]
      exact (origIdx_perm_range batch lens h).mem_iff.mpr
        (List.mem_range.mpr (by omega))
    cases hf : ((sortRows batch lens).map (fun (r : Nat × Nat × α) =>
        (r.2.1, r.2.2))).find? (fun p => p.1 == j) with
    | none =>
      exfalso
      rcases List.mem_map.mp hjmem with ⟨p, hp, hpj⟩
      have := List.find?_eq_none.mp hf p hp
      simp [hpj] at this
    | some p =>
      have hp1 : p.1 = j := by simpa using List.find?_some hf
      have hpmem := List.mem_of_find?_eq_some hf
      have hval := (hmem p hpmem).2
      rw [hp1] at hval
      rw [List.getElem?_map, hval]
      rfl
  · have hfnone : ((sortRows batch lens).map (fun (r : Nat × Nat × α) =>
        (r.2.1, r.2.2))).find? (fun p => p.1 == j) = none := by
      rw [List.find?_eq_none]
      intro p hp
      have := (hmem p hp).1
      simp only [beq_iff_eq]
      omega
    rw [hfnone, List.getElem?_eq_none (by rw [List.length_replicate]; omega),
      List.getElem?_eq_none (by rw [List.length_map]; omega)]

/-- Claim C7 witness: the round trip at a concrete two-example batch
with distinct lengths. -/
theorem claim7_sort_all_roundtrip_witness :
    scatterByOrigIdx (sort_all ([10, 20] : List Nat) [1, 2]).1
        (sort_all ([10, 20] : List Nat) [1, 2]).2 ([10, 20] : List Nat).length =
      ([10, 20] : List Nat).map some :=
  claim7_sort_all_roundtrip [10, 20] [1, 2] (by decide)

/-- Claim C4 counterexample: on two examples of equal length, `sort_all`
puts the example from pre-sort position 1 first (`orig_idx = [1, 0]`),
not the earlier one as a stable tie-break would (`orig_idx = [0, 1]`):
Python's `reverse=True` sort of `(len, position, ...)` tuples orders
equal-length rows by *descending* original position. -/
theorem claim4_counterexample :
    sort_all ([10, 20] : List Nat) [1, 1] = ([20, 10], [1, 0]) ∧
    sort_all ([10, 20] : List Nat) [1, 1] ≠ ([10, 20], [0, 1]) := by
  constructor
  · rfl
  · decide

/-- Claim C4 (amended): `sort_all` orders the examples by length
descending and breaks ties among equal-length examples by *descending*
pre-sort position (the later example first); entry `i` of `orig_idx` is
the pre-sort position of the example now at sorted position `i`. -/
theorem claim4_sort_all_order (batch : List α) (lens : List Nat)
    (h : lens.length = batch.length) :
    (sort_all batch lens).1.length = lens.length ∧
    (sort_all batch lens).2.length = lens.length ∧
    (∀ (i oi : Nat), (sort_all batch lens).2[i]? = some oi →
        oi < lens.length ∧ (sort_all batch lens).1[i]? = batch[oi]?) ∧
    (∀ (i j oi oj li lj : Nat), i < j →
        (sort_all batch lens).2[i]? = some oi →
        (sort_all batch lens).2[j]? = some oj →
        lens[oi]? = some li → lens[oj]? = some lj →
        lj < li ∨ (li = lj ∧ oj < oi)) := by
  have hrows_len : (lens.zip ((List.range lens.length).zip batch)).length = lens.length := by
    rw [List.length_zip, List.length_zip, List.length_range, ← h]
    omega
  have hsort_len : (sortRows batch lens).length = lens.length := by
    rw [sortRows, List.length_insertionSort, hrows_len]
  have hchar : ∀ r ∈ sortRows batch lens,
      r.2.1 < lens.length ∧ lens[r.2.1]? = some r.1 ∧ batch[r.2.1]? = some r.2.2 := by
    intro r hr
    exact rows_mem_char batch lens h r ((sortRows_perm batch lens).mem_iff.mp hr)
  have hndoi : (sort_all batch lens).2.Nodup :=
    (origIdx_perm_range batch lens h).nodup_iff.mpr (List.nodup_range _)
  refine ⟨?_, ?_, ?_, ?_⟩
  · rw [sort_all_eq]
    simpa using hsort_len
  · rw [sort_all_eq]
    simpa using hsort_len
  · intro i oi hoi
    rw [sort_all_eq] at hoi ⊢
    simp only [List.getElem?_map] at hoi
    rcases Option.map_eq_some'.mp hoi with ⟨r, hri, hr21⟩
    have hrmem : r ∈ sortRows batch lens := List.getElem?_mem hri
    have hc := hchar r hrmem
    subst hr21
    refine ⟨hc.1, ?_⟩
    simp only [List.getElem?_map, hri, Option.map_some']
    exact hc.2.2.symm
  · intro i j oi oj li lj hij hoi hoj hli hlj
    rw [sort_all_eq] at hoi hoj
    simp only [List.getElem?_map] at hoi hoj
    rcases Option.map_eq_some'.mp hoi with ⟨ri, hri, hri21⟩
    rcases Option.map_eq_some'.mp hoj with ⟨rj, hrj, hrj21⟩
    have hi : i < (sortRows batch lens).length := by
      by_contra hcon
      rw [List.getElem?_eq_none (by omega)] at hri
      exact Option.noConfusion hri
    have hj : j < (sortRows batch lens).length := by
      by_contra hcon
      rw [List.getElem?_eq_none (by omega)] at hrj
      exact Option.noConfusion hrj
    have hsorted := List.pairwise_iff_getElem.mp (sortRows_sorted batch lens) i j hi hj hij
    have hri' : (sortRows batch lens)[i] = ri := by
      have := List.getElem?_eq_getElem hi
      rw [hri] at this
      exact (Option.some.inj this).symm
    have hrj' : (sortRows batch lens)[j] = rj := by
      have := List.getElem?_eq_getElem hj
      rw [hrj] at this
      exact (Option.some.inj this).symm
    rw [hri', hrj'] at hsorted
    have hchari := hchar ri (List.getElem?_mem hri)
    have hcharj := hchar rj (List.getElem?_mem hrj)
    have hlivals : li = ri.1 := by
      have := hchari.2.1
      rw [hri21] at this
      rw [hli] at this
      exact Option.some.inj this
    have hljvals : lj = rj.1 := by
      have := hcharj.2.1
      rw [hrj21] at this
      rw [hlj] at this
      exact Option.some.inj this
    have hne : oi ≠ oj := by
      intro he
      have hioj : (sort_all batch lens).2[i]? = some oi := by
        rw [sort_all_eq]
        simp only [List.getElem?_map, hri]
        exact congrArg some hri21
      have hjoj : (sort_all batch lens).2[j]? = some oj := by
        rw [sort_all_eq]
        simp only [List.getElem?_map, hrj]
        exact congrArg some hrj21
      have hi2 : i < (sort_all batch lens).2.length := by
        rw [sort_all_eq]
        simpa using (by omega : i < (sortRows batch lens).length)
      have hj2 : j < (sort_all batch lens).2.length := by
        rw [sort_all_eq]
        simpa using (by omega : j < (sortRows batch lens).length)
      have hgi : (sort_all batch lens).2[i] = oi := by
        have := List.getElem?_eq_getElem hi2
        rw [hioj] at this
        exact (Option.some.inj this).symm
      have hgj : (sort_all batch lens).2[j] = oj := by
        have := List.getElem?_eq_getElem hj2
        rw [hjoj] at this
        exact (Option.some.inj this).symm
      have : i = j := hndoi.getElem_inj_iff.mp (by rw [hgi, hgj, he])
      omega
    rcases hsorted with hlt | ⟨heq, hle⟩
    · left
      rw [hlivals, hljvals]
      exact hlt
    · right
      refine ⟨by rw [hlivals, hljvals, heq], ?_⟩
      rw [← hri21, ← hrj21] at hne ⊢
      omega

/-- Claim C4 witness: the amended theorem at the two-example batch with
lengths `[1, 2]`. -/
theorem claim4_sort_all_order_witness :
    (sort_all ([10, 20] : List Nat) [1, 2]).1.length = ([1, 2] : List Nat).length ∧
    (sort_all ([10, 20] : List Nat) [1, 2]).2.length = ([1, 2] : List Nat).length ∧
    (∀ (i oi : Nat), (sort_all ([10, 20] : List Nat) [1, 2]).2[i]? = some oi →
        oi < ([1, 2] : List Nat).length ∧
        (sort_all ([10, 20] : List Nat) [1, 2]).1[i]? = ([10, 20] : List Nat)[oi]?) ∧
    (∀ (i j oi oj li lj : Nat), i < j →
        (sort_all ([10, 20] : List Nat) [1, 2]).2[i]? = some oi →
        (sort_all ([10, 20] : List Nat) [1, 2]).2[j]? = some oj →
        ([1, 2] : List Nat)[oi]? = some li → ([1, 2] : List Nat)[oj]? = some lj →
        lj < li ∨ (li = lj ∧ oj < oi)) :=
  claim4_sort_all_order [10, 20] [1, 2] (by decide)

/-- Claim C2 (code-bug evidence): `ready_binary_labels_batch` can
never return the claimed vectors, because its first statement reads
`self.rel2id` and no code ever assigns that attribute on `Batcher` —
every invocation raises `AttributeError` (first two conjuncts, at the
concrete labels `[2, 0]`). With the attribute counterfactually bound to
a three-relation map whose last index is `no_relation` — the evident
intent, documented by the method's own comment — the guarded
construction yields exactly the claimed width-`num_relations - 1`
multi-hot vectors: the reserved last index 2 sets no bit and label 0
sets only its own bit (third conjunct, on the length-sorted labels
`[0, 2]`). -/
theorem claim2_binary_labels_attribute_error :
    batcherRel2id = none ∧
    (ready_binary_labels_batch batcherRel2id [2, 0] [1, 1]).isOk = false ∧
    ready_binary_labels_batch (some c2Rel2id) [2, 0] [1, 1] =
      .ok [[1, 0], [0, 0]] := by
  refine ⟨rfl, rfl, rfl⟩

/-- Claim C1 (code-bug evidence): with relation masking enabled, the
batches built from a parsed corpus carry their supplemental data under
the keys `triple` and `relation_masking`, yet `ready_data_batch`'s
dispatch (which handles only `relation_masks`, `binary_labels` and
`triple`) readies only the `triple` entry — the relation-masking
multi-hot tensors the spec promises are silently dropped (and the
handler that would build them reads `self.rel2id`, an attribute never
assigned on `Batcher`). -/
theorem claim1_relation_masking_dropped :
    ((pipelineBatches maskCfg vocabState [sampleRecord] CurriculumStage.full 50).map
        (fun (b : DataBatch) => b.supplemental.map Prod.fst) =
      [["triple", "relation_masking"]]) ∧
    ((pipelineBatches maskCfg vocabState [sampleRecord] CurriculumStage.full 50).map
        (fun (b : DataBatch) => readySupplementalNames b.supplemental) =
      [["triple"]]) := by
  constructor
  · rfl
  · rfl

theorem parseRecords_length (cfg : Config) : ∀ (st : ProcState) (records : List RawRecord)
    (samples : List Sample) (stOut : ProcState),
    parseRecords cfg st records = .ok (samples, stOut) →
    samples.length = records.length := by
  intro st records
  induction records generalizing st with
  | nil =>
    intro samples stOut h
    rw [parseRecords] at h
    cases h
    rfl
  | cons d ds ih =>
    intro samples stOut h
    rw [parseRecords] at h
    cases hp : parseRecord cfg st d with
    | error e =>
      rw [hp] at h
      simp only [Bind.bind, Except.bind] at h
      exact Except.noConfusion h
    | ok p =>
      rcases p with ⟨s, st'⟩
      rw [hp] at h
      simp only [Bind.bind, Except.bind] at h
      cases hr : parseRecords cfg st' ds with
      | error e =>
        rw [hr] at h
        simp only [Except.bind] at h
        exact Except.noConfusion h
      | ok q =>
        rcases q with ⟨rest, st''⟩
        rw [hr] at h
        simp only [Except.bind] at h
        cases h
        have := ih st' rest _ hr
        simpa using this

theorem lookup_eq_none_not_mem [BEq α] [LawfulBEq α] (m : Dict α β) (k : α)
    (h : m.lookup k = none) : ∀ v, (k, v) ∉ m := by
  induction m with
  | nil => intro v hv; simp at hv
  | cons p t ih =>
    rcases p with ⟨a, b⟩
    intro v hv
    cases hk : k == a with
    | true => simp [List.lookup, hk] at h
    | false =>
      rcases List.mem_cons.mp hv with he | hm
      · have : k = a := congrArg Prod.fst he
        simp [this] at hk
      · exact ih (by simpa [List.lookup, hk] using h) v hm

/-- Claim C5 counterexample: `badSpanRecord` has every required field,
but its subject span `[5, 6]` lies outside its 2-token sentence
(violating `0 ≤ start ≤ end < len(tokens)`); `parse_data` nevertheless
succeeds and produces one sample instead of failing with a schema
error. -/
theorem claim5_counterexample :
    badSpanRecord.token = some ["a", "b"] ∧
    badSpanRecord.subj_start = some 5 ∧
    badSpanRecord.subj_end = some 6 ∧
    (parse_data maskCfg vocabState [badSpanRecord]).isOk = true ∧
    (parse_data maskCfg vocabState [badSpanRecord]).map
      (fun pr => pr.samples.length) = .ok 1 := by
  refine ⟨rfl, rfl, rfl, rfl, rfl⟩

/-- Claim C5 (amended): parsing a record succeeds exactly when all
required fields are present and both synthetic entity-type tokens are
in the vocabulary — span boundaries are never validated, so a record
with an out-of-range span still yields a sample; and a successful parse
yields exactly one sample per record. -/
theorem claim5_parse_record (cfg : Config) (st : ProcState) (d : RawRecord) :
    ((parseRecord cfg st d).isOk = true ↔
      (requiredFieldsPresent d ∧ entityTypesKnown st d)) ∧
    (∀ (st₂ : ProcState) (records : List RawRecord) (samples : List Sample)
        (stOut : ProcState), parseRecords cfg st₂ records = .ok (samples, stOut) →
      samples.length = records.length) := by
  refine ⟨?_, fun st₂ records samples stOut h => parseRecords_length cfg st₂ records samples stOut h⟩
  obtain ⟨tok, sst, sen, ost, oen, sty, oty, posr, nerr, depr, relr⟩ := d
  cases tok with
  | none => simp [parseRecord, requiredFieldsPresent, Except.isOk, Except.toBool]
  | some tok =>
  cases sst with
  | none => simp [parseRecord, requiredFieldsPresent, Except.isOk, Except.toBool]
  | some sst =>
  cases sen with
  | none => simp [parseRecord, requiredFieldsPresent, Except.isOk, Except.toBool]
  | some sen =>
  cases ost with
  | none => simp [parseRecord, requiredFieldsPresent, Except.isOk, Except.toBool]
  | some ost =>
  cases oen with
  | none => simp [parseRecord, requiredFieldsPresent, Except.isOk, Except.toBool]
  | some oen =>
  cases sty with
  | none => simp [parseRecord, requiredFieldsPresent, Except.isOk, Except.toBool]
  | some sty =>
  cases oty with
  | none => simp [parseRecord, requiredFieldsPresent, Except.isOk, Except.toBool]
  | some oty =>
  cases posr with
  | none => simp [parseRecord, requiredFieldsPresent, Except.isOk, Except.toBool]
  | some posr =>
  cases nerr with
  | none => simp [parseRecord, requiredFieldsPresent, Except.isOk, Except.toBool]
  | some nerr =>
  cases depr with
  | none => simp [parseRecord, requiredFieldsPresent, Except.isOk, Except.toBool]
  | some depr =>
  cases relr with
  | none => simp [parseRecord, requiredFieldsPresent, Except.isOk, Except.toBool]
  | some relr =>
  cases hsl : st.ent2id.lookup ("SUBJ-" ++ sty) with
  | none =>
    simp [parseRecord, requiredFieldsPresent, entityTypesKnown, hsl, Except.isOk,
      Except.toBool]
    intro x hx
    exact absurd hx (lookup_eq_none_not_mem st.ent2id _ hsl x)
  | some sid =>
  cases hol : st.ent2id.lookup ("OBJ-" ++ oty) with
  | none =>
    simp [parseRecord, requiredFieldsPresent, entityTypesKnown, hsl, hol, Except.isOk,
      Except.toBool]
    intro x1 h1 x2 h2
    exact lookup_eq_none_not_mem st.ent2id _ hol x2 h2
  | some oid =>
    simp [parseRecord, requiredFieldsPresent, entityTypesKnown, hsl, hol, Except.isOk,
      Except.toBool]
    exact ⟨⟨sid, lookup_eq_some_mem st.ent2id _ sid hsl⟩,
      ⟨oid, lookup_eq_some_mem st.ent2id _ oid hol⟩⟩

/-- Claim C5 witness: the amended theorem at the concrete well-formed
record `sampleRecord`, and the one-sample-per-record consequence on the
concrete one-record corpus. -/
theorem claim5_parse_record_witness :
    ((parseRecord maskCfg vocabState sampleRecord).isOk = true ↔
      (requiredFieldsPresent sampleRecord ∧ entityTypesKnown vocabState sampleRecord)) ∧
    cParsedPair.1.length = ([sampleRecord] : List RawRecord).length :=
  ⟨(claim5_parse_record maskCfg vocabState sampleRecord).1,
   (claim5_parse_record maskCfg vocabState sampleRecord).2 vocabState [sampleRecord]
     cParsedPair.1 cParsedPair.2 (by rfl)⟩

theorem add_unused_append (unused : List (Nat × Nat × Nat))
    (m : Dict (Nat × Nat × Nat) String) :
    add_unused_triples unused m = m ++ unused.map (fun t => (t, "no_relation")) := by
  induction unused generalizing m with
  | nil => simp [add_unused_triples]
  | cons t ts ih =>
    have := ih (m ++ [(t, "no_relation")])
    simpa [add_unused_triples, List.foldl_cons, List.append_assoc] using this

theorem lookup_map_const [BEq α] [LawfulBEq α] (l : List α) (c : β) (t : α) (h : t ∈ l) :
    (l.map (fun x => (x, c))).lookup t = some c := by
  induction l with
  | nil => simp at h
  | cons a rest ih =>
    cases hk : t == a with
    | true => simp [List.lookup, hk]
    | false =>
      have hmem : t ∈ rest := by
        rcases List.mem_cons.mp h with he | hm
        · simp [he] at hk
        · exact hm
      simpa [List.lookup, hk] using ih hmem

theorem mem_create_all_possible (st : ProcState) (s r o : Nat)
    (hs : s ∈ st.subj2id.map Prod.snd) (hr : r ∈ st.rel2id.map Prod.snd)
    (ho : o ∈ st.obj2id.map Prod.snd) :
    (s, r, o) ∈ create_all_possible_triples st := by
  rw [create_all_possible_triples, List.mem_dedup]
  exact List.mem_flatMap.mpr
    ⟨s, hs, List.mem_flatMap.mpr ⟨r, hr, List.mem_map.mpr ⟨o, ho, rfl⟩⟩⟩

/-- Claim C6: after a successful `parse_data`, every triple in the
Cartesian product of observed subject-type ids, all relation ids and
observed object-type ids has an entry in `triple2subj_obj` (no
missing-key error), and every such triple absent from the observed
(reverse) map — i.e. never seen in the data — maps to `no_relation`. -/
theorem claim6_closed_triple_world (cfg : Config) (st : ProcState)
    (records : List RawRecord) (pr : ParseResult)
    (h : parse_data cfg st records = .ok pr) :
    ∀ s ∈ pr.state.subj2id.map Prod.snd, ∀ r ∈ pr.state.rel2id.map Prod.snd,
      ∀ o ∈ pr.state.obj2id.map Prod.snd,
        (pr.triple2subj_obj.lookup (s, r, o)).isSome = true ∧
        ((reverse_set_maps pr.state.subj_obj2triples).lookup (s, r, o) = none →
          pr.triple2subj_obj.lookup (s, r, o) = some "no_relation") := by
  cases hp : parseRecords cfg st records with
  | error e =>
    rw [parse_data, hp] at h
    exact Except.noConfusion h
  | ok p =>
    rcases p with ⟨samples, st'⟩
    rw [parse_data, hp] at h
    have hpr := Except.ok.inj h
    have hstate : pr.state = st' := by rw [← hpr]
    have htso : pr.triple2subj_obj = add_unused_triples
        ((create_all_possible_triples st').filter
          (fun t => ((reverse_set_maps st'.subj_obj2triples).lookup t).isNone))
        (reverse_set_maps st'.subj_obj2triples) := by rw [← hpr]
    rw [htso, hstate]
    intro s hs r hr o ho
    rw [add_unused_append, lookup_append_cases]
    cases hob : (reverse_set_maps st'.subj_obj2triples).lookup (s, r, o) with
    | some v =>
      refine ⟨by simp, ?_⟩
      intro hnone
      exact Option.noConfusion hnone
    | none =>
      have hmem : (s, r, o) ∈ (create_all_possible_triples st').filter
          (fun t => ((reverse_set_maps st'.subj_obj2triples).lookup t).isNone) := by
        rw [List.mem_filter]
        refine ⟨mem_create_all_possible st' s r o hs hr ho, ?_⟩
        rw [hob]
        rfl
      have hlook := lookup_map_const _ "no_relation" _ hmem
      exact ⟨by simp [hlook], fun _ => by simp [hlook]⟩

/-- Claim C6 witness: on the concrete two-record corpus, the triple
`(2, 0, 4)` — subject type `SUBJ-X`, relation `no_relation`, object
type `OBJ-Z` — is in the type/relation product but never observed, and
resolves to `no_relation` without a missing-key error. -/
theorem claim6_closed_triple_world_witness :
    (cParseResult2.triple2subj_obj.lookup (2, 0, 4)).isSome = true ∧
    cParseResult2.triple2subj_obj.lookup (2, 0, 4) = some "no_relation" := by
  have happ := claim6_closed_triple_world maskCfg vocabState [sampleRecord, sampleRecord2]
    cParseResult2 (by rfl) 2 (by decide) 0 (by decide) 4 (by decide)
  exact ⟨happ.1, happ.2 (by decide)⟩

theorem lookup_map_by_snd (l : Dict String Nat) (g : Nat → Nat) (r : Nat)
    (h : r ∈ l.map Prod.snd) :
    (l.map (fun p => (p.2, g p.2))).lookup r = some (g r) := by
  induction l with
  | nil => simp at h
  | cons p t ih =>
    cases hk : r == p.2 with
    | true =>
      have he : r = p.2 := by simpa using hk
      simp [List.lookup, hk, he]
    | false =>
      have h' : r ∈ p.2 :: t.map Prod.snd := h
      have hmem : r ∈ t.map Prod.snd := by
        rcases List.mem_cons.mp h' with he | hm
        · simp [he] at hk
        · exact hm
      simpa [List.lookup, hk] using ih hmem

theorem lookup_distribute (rel2id : Dict String Nat) (sample_size : Nat)
    (bonus : List Nat) (r : Nat) (h : r ∈ rel2id.map Prod.snd) :
    (distribute_sample_size rel2id sample_size bonus).lookup r =
      some (sample_size / rel2id.length + (if bonus.contains r then 1 else 0)) := by
  unfold distribute_sample_size
  exact lookup_map_by_snd rel2id
    (fun x => sample_size / rel2id.length + (if bonus.contains x then 1 else 0)) r h

theorem distribute_quota (rel2id : Dict String Nat) (sample_size : Nat)
    (bonus : List Nat) (r q : Nat)
    (h : (distribute_sample_size rel2id sample_size bonus).lookup r = some q) :
    q = sample_size / rel2id.length ∨ q = sample_size / rel2id.length + 1 := by
  have hmem := lookup_eq_some_mem _ _ _ h
  unfold distribute_sample_size at hmem
  rcases List.mem_map.mp hmem with ⟨p, -, he⟩
  have hq : sample_size / rel2id.length + (if bonus.contains p.2 then 1 else 0) = q :=
    congrArg Prod.snd he
  by_cases hc : bonus.contains p.2
  · right
    rw [← hq, if_pos hc]
  · left
    rw [← hq, if_neg hc]
    omega

theorem mem_dictInsert [BEq α] (m : Dict α β) (k : α) (v : β) :
    ∀ p ∈ dictInsert m k v, p = (k, v) ∨ p ∈ m := by
  intro p hp
  unfold dictInsert at hp
  by_cases hl : (m.lookup k).isSome
  · rw [if_pos hl] at hp
    rcases List.mem_map.mp hp with ⟨q, hq, he⟩
    cases hqk : q.1 == k with
    | true =>
      left
      rw [← he]
      simp [hqk]
    | false =>
      right
      rw [← he]
      simpa [hqk] using hq
  · rw [if_neg hl] at hp
    rcases List.mem_append.mp hp with h1 | h1
    · right
      exact h1
    · left
      simpa using h1

theorem groupAux_props (n : Nat) (rels : List Nat) :
    ∀ (rest : List Sample) (i : Nat) (m : Dict Nat (List Nat)),
      (∀ p ∈ m, p.1 ∈ rels ∧ ∀ x ∈ p.2, x < n) →
      (∀ smp ∈ rest, smp.base.relation ∈ rels) →
      i + rest.length ≤ n →
      ∀ p ∈ groupByClassAux i rest m, p.1 ∈ rels ∧ ∀ x ∈ p.2, x < n := by
  intro rest
  induction rest with
  | nil =>
    intro i m hm _ _ p hp
    exact hm p (by simpa [groupByClassAux] using hp)
  | cons smp rest ih =>
    intro i m hm hrest hb p hp
    rw [groupByClassAux] at hp
    have hin : i < n := by
      have := List.length_cons smp rest
      omega
    have hrel : smp.base.relation ∈ rels := hrest smp (List.mem_cons_self smp rest)
    refine ih (i + 1) _ ?_ (fun q hq => hrest q (List.mem_cons_of_mem _ hq))
      (by simp at hb ⊢; omega) p hp
    intro q hq
    cases hl : m.lookup smp.base.relation with
    | some idxs =>
      rw [hl] at hq
      rcases mem_dictInsert m smp.base.relation (idxs ++ [i]) q hq with he | hold
      · subst he
        refine ⟨hrel, ?_⟩
        intro x hx
        rcases List.mem_append.mp hx with hx | hx
        · exact (hm _ (lookup_eq_some_mem m _ idxs hl)).2 x hx
        · have : x = i := by simpa using hx
          omega
      · exact hm q hold
    | none =>
      rw [hl] at hq
      rcases List.mem_append.mp hq with hold | hnew
      · exact hm q hold
      · have he : q = (smp.base.relation, [i]) := by simpa using hnew
        subst he
        refine ⟨hrel, ?_⟩
        intro x hx
        have : x = i := by simpa using hx
        omega

theorem group_by_class_props (data : List Sample) :
    ∀ p ∈ group_by_class data,
      p.1 ∈ data.map (fun smp => smp.base.relation) ∧ ∀ x ∈ p.2, x < data.length := by
  intro p hp
  exact groupAux_props data.length (data.map (fun smp => smp.base.relation)) data 0 []
    (by simp) (fun smp h => List.mem_map.mpr ⟨smp, h, rfl⟩) (by simp) p
    (by simpa [group_by_class] using hp)

theorem mapOption_eq_some_map (f : α → Option β) (g : α → β) :
    ∀ (l : List α), (∀ a ∈ l, f a = some (g a)) → mapOption f l = some (l.map g) := by
  intro l
  induction l with
  | nil => intro _; rfl
  | cons a t ih =>
    intro h
    have ha := h a (List.mem_cons_self a t)
    have ht := ih (fun b hb => h b (List.mem_cons_of_mem _ hb))
    simp only [mapOption, ha, ht, List.map_cons]

/-- Claim C3 counterexample: two relations with four examples (three of
relation 0, one of relation 1) and `sample_size = 4` (remainder 0, so
the bonus draw is empty). The quotas are 2 and 2, relation 1 has only
one example, and the sampled total is 3, not
`min(sample_size, corpus_size) = 4`. -/
theorem claim3_counterexample :
    c3Data.length = 4 ∧
    4 % c3Rel2id.length = 0 ∧
    (perform_stratified_sampling takeChoose c3Rel2id 4 [] c3Data).map List.length =
      some 3 ∧
    (3 : Nat) ≠ min 4 c3Data.length := by
  refine ⟨rfl, rfl, rfl, by decide⟩

/-- Claim C3 (amended): with a quota map allocating
`floor(sample_size / num_relations)` slots per relation plus one bonus
slot for the drawn relations, stratified sampling succeeds and returns
`Σ_r min(quota_r, count_r)` examples — each relation with fewer
examples than its quota contributes all of them, without error, so the
total can fall short of `min(sample_size, corpus_size)`; and every
relation's quota differs from `floor(sample_size / num_relations)` by
at most 1. -/
theorem claim3_stratified_sampling (choose : List Nat → Nat → List Nat)
    (rel2id : Dict String Nat) (sample_size : Nat) (bonus : List Nat)
    (data : List Sample)
    (hchooseLen : ∀ (idxs : List Nat) (k : Nat), k ≤ idxs.length →
      (choose idxs k).length = k)
    (hchooseSub : ∀ (idxs : List Nat) (k : Nat), ∀ x ∈ choose idxs k, x ∈ idxs)
    (hrels : ∀ smp ∈ data, smp.base.relation ∈ rel2id.map Prod.snd) :
    (∃ out, perform_stratified_sampling choose rel2id sample_size bonus data =
        some out ∧
      out.length = ((group_by_class data).map (fun p =>
        min (sample_size / rel2id.length + (if bonus.contains p.1 then 1 else 0))
          p.2.length)).sum) ∧
    (∀ (r q : Nat), (distribute_sample_size rel2id sample_size bonus).lookup r = some q →
      q = sample_size / rel2id.length ∨ q = sample_size / rel2id.length + 1) := by
  refine ⟨?_, fun r q h => distribute_quota rel2id sample_size bonus r q h⟩
  have hgp := group_by_class_props data
  have hsbc : sample_by_class choose (group_by_class data)
      (distribute_sample_size rel2id sample_size bonus) =
      some ((group_by_class data).map (fun p => (p.1, choose p.2
        (min (sample_size / rel2id.length + (if bonus.contains p.1 then 1 else 0))
          p.2.length)))) := by
    unfold sample_by_class
    apply mapOption_eq_some_map
    intro p hp
    have hr : p.1 ∈ rel2id.map Prod.snd := by
      rcases List.mem_map.mp (hgp p hp).1 with ⟨smp, hsmp, he⟩
      exact he ▸ hrels smp hsmp
    rw [lookup_distribute rel2id sample_size bonus p.1 hr]
    rfl
  have hbound : ∀ i ∈ aggregate_sample_indices ((group_by_class data).map
      (fun p => (p.1, choose p.2
        (min (sample_size / rel2id.length + (if bonus.contains p.1 then 1 else 0))
          p.2.length)))), i < data.length := by
    intro i hi
    unfold aggregate_sample_indices at hi
    rcases List.mem_flatten.mp hi with ⟨sub, hsub, hisub⟩
    rcases List.mem_map.mp hsub with ⟨q, hq, hqe⟩
    rcases List.mem_map.mp hq with ⟨p, hp, hpe⟩
    have hchosen : i ∈ p.2 := by
      have := hchooseSub p.2
        (min (sample_size / rel2id.length + (if bonus.contains p.1 then 1 else 0))
          p.2.length) i
      apply this
      rw [← hpe] at hqe
      simpa [← hqe] using hisub
    exact (hgp p hp).2 i hchosen
  have hgather : mapOption (fun i => data[i]?) (aggregate_sample_indices
      ((group_by_class data).map (fun p => (p.1, choose p.2
        (min (sample_size / rel2id.length + (if bonus.contains p.1 then 1 else 0))
          p.2.length))))) =
      some ((aggregate_sample_indices ((group_by_class data).map (fun p => (p.1,
        choose p.2 (min (sample_size / rel2id.length +
          (if bonus.contains p.1 then 1 else 0)) p.2.length))))).map
        (fun i => (data[i]?).getD default)) := by
    apply mapOption_eq_some_map
    intro i hi
    have hlt := hbound i hi
    rw [List.getElem?_eq_getElem hlt]
    rfl
  have hperform : perform_stratified_sampling choose rel2id sample_size bonus data =
      some ((aggregate_sample_indices ((group_by_class data).map (fun p => (p.1,
        choose p.2 (min (sample_size / rel2id.length +
          (if bonus.contains p.1 then 1 else 0)) p.2.length))))).map
        (fun i => (data[i]?).getD default)) := by
    have hstep : perform_stratified_sampling choose rel2id sample_size bonus data =
        Option.bind (sample_by_class choose (group_by_class data)
          (distribute_sample_size rel2id sample_size bonus))
          (fun class2sample => mapOption (fun i => data[i]?)
            (aggregate_sample_indices class2sample)) := rfl
    rw [hstep, hsbc]
    exact hgather
  refine ⟨_, hperform, ?_⟩
  · rw [List.length_map]
    unfold aggregate_sample_indices
    rw [List.map_map, List.length_flatten, List.map_map]
    apply congrArg List.sum
    apply List.map_congr_left
    intro p hp
    simp only [Function.comp]
    exact hchooseLen p.2 _ (min_le_right _ _)

/-- Claim C3 witness: the amended theorem at the concrete corpus with
`sample_size = 5` and bonus relation 0 (remainder `5 % 2 = 1`), drawing
with `takeChoose`. -/
theorem claim3_stratified_sampling_witness :
    (∃ out, perform_stratified_sampling takeChoose c3Rel2id 5 [0] c3Data = some out ∧
      out.length = ((group_by_class c3Data).map (fun p =>
        min (5 / c3Rel2id.length + (if ([0] : List Nat).contains p.1 then 1 else 0))
          p.2.length)).sum) ∧
    (∀ (r q : Nat), (distribute_sample_size c3Rel2id 5 [0]).lookup r = some q →
      q = 5 / c3Rel2id.length ∨ q = 5 / c3Rel2id.length + 1) :=
  claim3_stratified_sampling takeChoose c3Rel2id 5 [0] c3Data
    (fun idxs k hk => by simp only [takeChoose, List.length_take]; omega)
    (fun idxs k x hx => List.mem_of_mem_take hx)
    (by decide)

theorem create_iterator_loop_store (enrich : Sample → Sample) :
    ∀ (addrs : List Nat) (h : Heap) (x : Nat), x < h.next →
      ((create_iterator_loop enrich h addrs).1.store x = h.store x ∧
       h.next ≤ (create_iterator_loop enrich h addrs).1.next) := by
  intro addrs
  induction addrs with
  | nil =>
    intro h x hx
    exact ⟨rfl, le_refl _⟩
  | cons a rest ih =>
    intro h x hx
    rw [create_iterator_loop]
    have hstore2 : (heapWrite (heapDeepcopy h a).1 (heapDeepcopy h a).2
        (enrich ((heapDeepcopy h a).1.store (heapDeepcopy h a).2))).store x = h.store x := by
      simp only [heapWrite, heapDeepcopy]
      rw [if_neg (by omega : ¬ x = h.next), if_neg (by omega : ¬ x = h.next)]
    have hnext2 : (heapWrite (heapDeepcopy h a).1 (heapDeepcopy h a).2
        (enrich ((heapDeepcopy h a).1.store (heapDeepcopy h a).2))).next = h.next + 1 := rfl
    have hrec := ih (heapWrite (heapDeepcopy h a).1 (heapDeepcopy h a).2
      (enrich ((heapDeepcopy h a).1.store (heapDeepcopy h a).2))) x (by omega)
    refine ⟨?_, ?_⟩
    · rw [hrec.1, hstore2]
    · have := hrec.2
      show h.next ≤ (create_iterator_loop enrich (heapWrite (heapDeepcopy h a).1
        (heapDeepcopy h a).2 (enrich ((heapDeepcopy h a).1.store
          (heapDeepcopy h a).2))) rest).1.next
      omega

/-- Claim C10: the `create_iterator` loop deep-copies every partition
sample to a fresh address and mutates only the copies, so after the
loop every live partition address still holds exactly its original
sample value — no `activated_relations` is added to it and its
`relation_masking` entry is not replaced. (The Batcher's shuffle
permutes only the returned list of copy addresses, never the store.) -/
theorem claim10_create_iterator_frame (enrich : Sample → Sample) (h : Heap)
    (addrs : List Nat) (hlive : ∀ a ∈ addrs, a < h.next) :
    ∀ a ∈ addrs, ((create_iterator_loop enrich h addrs).1).store a = h.store a :=
  fun a ha => (create_iterator_loop_store enrich addrs h a (hlive a ha)).1

/-- Claim C10 witness: a one-sample heap enriched through the loop; the
original address still holds the unenriched sample. -/
theorem claim10_create_iterator_frame_witness :
    ((create_iterator_loop enrich0 heap0 [0]).1).store 0 = heap0.store 0 :=
  claim10_create_iterator_frame enrich0 heap0 [0] (by decide) 0 (by decide)

end ProcessData